import Mathlib

/-!
# Verification of the dashboard data pipeline

Shallow embedding of the data-transformation core of the `bobmeijer/dashboard`
repository: the value parsers / metrics calculator / KPI aggregation
(`src/utils/dataProcessor.ts`, given as `src/unnamed/part_008`), the
period-comparison engine of the trends view (`src/unnamed/part_002`), and the
row-acceptance pipeline (`src/utils/fieldMapping.ts`).

Modelling conventions:
* JavaScript `Date` objects produced by the pipeline are local-midnight
  calendar dates; they are embedded as `CalDate` (year/month/day).  Time zones
  and DST are not modelled: all dates sit at local midnight, so the
  millisecond difference quotients in the source are exact day counts.
* JavaScript numbers are embedded as `ℚ` (the source only adds, subtracts,
  divides and compares finite decimal values).
* Period-key strings (`"2024-1"`, `"2024-Q1"`, ...) are embedded as the
  structured type `PeriodKey`; string equality on keys corresponds to
  decidable equality of `PeriodKey`.
-/

/-! ## Calendar model (JS `Date` at local midnight) -/

/-- Gregorian leap-year test, as implemented by the JS `Date` rollover rules. -/
def isLeap (y : Int) : Bool :=
  (y % 4 = 0 && y % 100 ≠ 0) || y % 400 = 0

/-- Days in month `m` (1-based) of year `y`; 0 for out-of-range months. -/
def daysInMonth (y : Int) (m : Nat) : Nat :=
  match m with
  | 1 => 31 | 2 => if isLeap y then 29 else 28 | 3 => 31 | 4 => 30
  | 5 => 31 | 6 => 30 | 7 => 31 | 8 => 31 | 9 => 30 | 10 => 31
  | 11 => 30 | 12 => 31 | _ => 0

/-- A calendar date: the `(getFullYear, getMonth()+1, getDate)` view of a JS
`Date` at local midnight. -/
structure CalDate where
  year : Int
  month : Nat
  day : Nat
deriving DecidableEq, Repr

/-- A `CalDate` denotes a real calendar day. -/
def CalDate.Valid (d : CalDate) : Prop :=
  1 ≤ d.month ∧ d.month ≤ 12 ∧ 1 ≤ d.day ∧ d.day ≤ daysInMonth d.year d.month

instance : DecidablePred CalDate.Valid := fun d => by
  unfold CalDate.Valid; infer_instance

/-- Days in year `y` strictly before month `m` (1-based). -/
def monthStartOffset (y : Int) (m : Nat) : Nat :=
  let L : Nat := if isLeap y then 1 else 0
  match m with
  | 1 => 0 | 2 => 31 | 3 => 59 + L | 4 => 90 + L | 5 => 120 + L | 6 => 151 + L
  | 7 => 181 + L | 8 => 212 + L | 9 => 243 + L | 10 => 273 + L
  | 11 => 304 + L | 12 => 334 + L | _ => 0

/-- 0-based index of the date inside its year (Jan 1 ↦ 0).  For midnight
dates this equals the JS quotient `(date - jan1OfYear) / 86400000`. -/
def dayOfYearIndex (d : CalDate) : Nat :=
  monthStartOffset d.year d.month + d.day - 1

/-- Linear day count of a proleptic-Gregorian date (day 0 = 0000-01-01);
used to embed JS epoch-millisecond comparison and `getDay`. -/
def epochDay (d : CalDate) : Int :=
  365 * d.year + (d.year + 3).fdiv 4 - (d.year + 99).fdiv 100
    + (d.year + 399).fdiv 400 + dayOfYearIndex d

/-- JS `Date.prototype.getDay`: 0 = Sunday, ..., 6 = Saturday.
Calibrated so that 1970-01-01 (epochDay 719528) is a Thursday (4). -/
def jsGetDay (d : CalDate) : Int :=
  (epochDay d + 6) % 7

/-- `date.getDay() || 7` — ISO day of week, 1 = Monday, ..., 7 = Sunday. -/
def isoDayOfWeek (d : CalDate) : Int :=
  if jsGetDay d = 0 then 7 else jsGetDay d

/-- Calendar successor (the JS `setDate(getDate() + 1)` rollover). -/
def nextDay (d : CalDate) : CalDate :=
  if d.day < daysInMonth d.year d.month then ⟨d.year, d.month, d.day + 1⟩
  else if d.month < 12 then ⟨d.year, d.month + 1, 1⟩
  else ⟨d.year + 1, 1, 1⟩

/-- Calendar predecessor (the JS `setDate(getDate() - 1)` rollover). -/
def prevDay (d : CalDate) : CalDate :=
  if 1 < d.day then ⟨d.year, d.month, d.day - 1⟩
  else if 1 < d.month then ⟨d.year, d.month - 1, daysInMonth d.year (d.month - 1)⟩
  else ⟨d.year - 1, 12, 31⟩

/-- JS `setDate(getDate() + n)` for an arbitrary integer offset. -/
def shiftDays (d : CalDate) (n : Int) : CalDate :=
  if 0 ≤ n then nextDay^[n.toNat] d else prevDay^[(-n).toNat] d

/-! ## ISO week computation (`getISOWeek`, part_008 lines 157-208) -/

/-- Result record `{ year, week }` of `getISOWeek`. -/
structure IsoWeekResult where
  year : Int
  week : Nat
deriving DecidableEq, Repr

/-- Week index the source recomputes for Dec 31 (part_008 line 184):
`Math.ceil(((dec31 - jan1) / 86400000 + 1) / 7)`. -/
def dec31WeekNumber (ty : Int) : Nat :=
  (dayOfYearIndex ⟨ty, 12, 31⟩ + 1 + 6) / 7

/-- Body of `getISOWeek` without the `weekNumber === 0` branch (that branch
recurses on Dec 31 of the previous year; Dec 31 never has week number 0, so
one level of unfolding below is faithful).
* `target` is the input shifted to the Thursday of its ISO week
  (`setDate(getDate() + (4 - dayOfWeek))`).
* `weekNumber` is `Math.ceil((dayDiff + 1) / 7)` where `dayDiff` is the
  day count from Jan 1 of `target`'s year — a nonnegative integer here,
  so the ceiling is `(dayDiff + 1 + 6) / 7` in `Nat`.
* the first branch is the source's `weekNumber > 52` re-check against
  Dec 31, the second is the Q1 year-overshoot guard (lines 200-205). -/
def isoWeekCore (date : CalDate) : IsoWeekResult :=
  let dayOfWeek := isoDayOfWeek date
  let target := shiftDays date (4 - dayOfWeek)
  let weekNumber := (dayOfYearIndex target + 1 + 6) / 7
  let isoYear := target.year
  if 52 < weekNumber ∧ dec31WeekNumber isoYear < 53 then ⟨isoYear + 1, 1⟩
  else if date.month ≤ 3 ∧ date.year < isoYear then ⟨date.year, weekNumber⟩
  else ⟨isoYear, weekNumber⟩

/-- `getISOWeek` (part_008 lines 157-208).  The `weekNumber === 0` branch
(lines 193-198) is modelled with its recursive call unfolded once via
`isoWeekCore`; the branch order relative to the `> 52` check is immaterial
because the two conditions are mutually exclusive. -/
def getISOWeek (date : CalDate) : IsoWeekResult :=
  let dayOfWeek := isoDayOfWeek date
  let target := shiftDays date (4 - dayOfWeek)
  let weekNumber := (dayOfYearIndex target + 1 + 6) / 7
  if weekNumber = 0 then
    let prevYear := target.year - 1
    ⟨prevYear, (isoWeekCore ⟨prevYear, 12, 31⟩).week⟩
  else isoWeekCore date

/-- `getLastISOWeekOfYear` (part_002 lines 78-91). -/
def getLastISOWeekOfYear (year : Int) : Nat :=
  let isoWeek := getISOWeek ⟨year, 12, 31⟩
  if year < isoWeek.year then (getISOWeek ⟨year, 12, 24⟩).week
  else isoWeek.week

/-! ## Validity and range lemmas for the calendar model -/

theorem one_le_daysInMonth (y : Int) {m : Nat} (h1 : 1 ≤ m) (h2 : m ≤ 12) :
    1 ≤ daysInMonth y m := by
  interval_cases m <;> cases hL : isLeap y <;> simp [daysInMonth, hL]

theorem nextDay_valid {d : CalDate} (h : d.Valid) : (nextDay d).Valid := by
  obtain ⟨h1, h2, h3, h4⟩ := h
  unfold nextDay
  split
  · rename_i hlt
    refine ⟨h1, h2, ?_, ?_⟩
    · show 1 ≤ d.day + 1
      omega
    · show d.day + 1 ≤ daysInMonth d.year d.month
      omega
  · split
    · rename_i hm
      refine ⟨?_, ?_, le_refl 1, ?_⟩
      · show 1 ≤ d.month + 1
        omega
      · show d.month + 1 ≤ 12
        omega
      · show 1 ≤ daysInMonth d.year (d.month + 1)
        exact one_le_daysInMonth d.year (by omega) (by omega)
    · refine ⟨le_refl 1, by norm_num, le_refl 1, ?_⟩
      show 1 ≤ daysInMonth (d.year + 1) 1
      norm_num [daysInMonth]

theorem prevDay_valid {d : CalDate} (h : d.Valid) : (prevDay d).Valid := by
  obtain ⟨h1, h2, h3, h4⟩ := h
  unfold prevDay
  split
  · rename_i hlt
    refine ⟨h1, h2, ?_, ?_⟩
    · show 1 ≤ d.day - 1
      omega
    · show d.day - 1 ≤ daysInMonth d.year d.month
      omega
  · split
    · rename_i hm
      refine ⟨?_, ?_, ?_, le_refl _⟩
      · show 1 ≤ d.month - 1
        omega
      · show d.month - 1 ≤ 12
        omega
      · show 1 ≤ daysInMonth d.year (d.month - 1)
        exact one_le_daysInMonth d.year (by omega) (by omega)
    · refine ⟨by norm_num, le_refl _, by norm_num, ?_⟩
      show 31 ≤ daysInMonth (d.year - 1) 12
      norm_num [daysInMonth]

theorem iterate_valid {f : CalDate → CalDate} (hf : ∀ d, d.Valid → (f d).Valid) :
    ∀ (n : Nat) (d : CalDate), d.Valid → (f^[n] d).Valid := by
  intro n
  induction n with
  | zero => exact fun d h => h
  | succ n ih =>
      intro d h
      rw [Function.iterate_succ_apply]
      exact ih _ (hf d h)

theorem shiftDays_valid {d : CalDate} (h : d.Valid) (n : Int) :
    (shiftDays d n).Valid := by
  unfold shiftDays
  split
  · exact iterate_valid (fun _ => nextDay_valid) _ _ h
  · exact iterate_valid (fun _ => prevDay_valid) _ _ h

theorem dayOfYearIndex_le {d : CalDate} (h : d.Valid) : dayOfYearIndex d ≤ 365 := by
  obtain ⟨y, m, day⟩ := d
  obtain ⟨h1, h2, h3, h4⟩ := h
  simp only [CalDate.Valid] at h1 h2 h3 h4
  interval_cases m <;> cases hL : isLeap y <;>
    simp [dayOfYearIndex, monthStartOffset, daysInMonth, hL] at h4 ⊢ <;> omega

theorem dec31WeekNumber_eq (ty : Int) : dec31WeekNumber ty = 53 := by
  unfold dec31WeekNumber dayOfYearIndex monthStartOffset
  cases hL : isLeap ty <;> simp [hL]

/-- The `weekNumber === 0` branch of `getISOWeek` is dead: the week index of a
nonnegative day offset is at least 1. -/
theorem getISOWeek_eq_core (d : CalDate) : getISOWeek d = isoWeekCore d := by
  simp only [getISOWeek]
  rw [if_neg (by omega)]

theorem isoWeekCore_spec (d : CalDate) (h : d.Valid) :
    1 ≤ (isoWeekCore d).week ∧ (isoWeekCore d).week ≤ 53 ∧
      (d.month ≤ 3 → (isoWeekCore d).year ≤ d.year) := by
  have htv : (shiftDays d (4 - isoDayOfWeek d)).Valid := shiftDays_valid h _
  have hn : dayOfYearIndex (shiftDays d (4 - isoDayOfWeek d)) ≤ 365 :=
    dayOfYearIndex_le htv
  simp only [isoWeekCore, dec31WeekNumber_eq]
  rw [if_neg (by omega)]
  split
  · rename_i hq
    refine ⟨?_, ?_, fun _ => ?_⟩
    · show 1 ≤ (dayOfYearIndex (shiftDays d (4 - isoDayOfWeek d)) + 1 + 6) / 7
      omega
    · show (dayOfYearIndex (shiftDays d (4 - isoDayOfWeek d)) + 1 + 6) / 7 ≤ 53
      omega
    · show d.year ≤ d.year
      exact le_refl _
  · rename_i hq
    refine ⟨?_, ?_, fun hm => ?_⟩
    · show 1 ≤ (dayOfYearIndex (shiftDays d (4 - isoDayOfWeek d)) + 1 + 6) / 7
      omega
    · show (dayOfYearIndex (shiftDays d (4 - isoDayOfWeek d)) + 1 + 6) / 7 ≤ 53
      omega
    · show (shiftDays d (4 - isoDayOfWeek d)).year ≤ d.year
      rw [not_and_or] at hq
      rcases hq with hq | hq
      · exact absurd hm hq
      · omega

/-- C3: for every valid calendar date, `getISOWeek` returns a week number
between 1 and 53 inclusive, and for dates in January, February or March the
returned ISO year is never greater than the date's calendar year. -/
theorem spec_c3_isoWeek_range (d : CalDate) (h : d.Valid) :
    1 ≤ (getISOWeek d).week ∧ (getISOWeek d).week ≤ 53 ∧
      (d.month ≤ 3 → (getISOWeek d).year ≤ d.year) := by
  rw [getISOWeek_eq_core]
  exact isoWeekCore_spec d h

/-- Witness for C3 at the concrete date 2024-02-15. -/
theorem spec_c3_isoWeek_range_witness :
    (⟨2024, 2, 15⟩ : CalDate).Valid ∧
      (1 ≤ (getISOWeek ⟨2024, 2, 15⟩).week ∧ (getISOWeek ⟨2024, 2, 15⟩).week ≤ 53 ∧
        ((⟨2024, 2, 15⟩ : CalDate).month ≤ 3 →
          (getISOWeek ⟨2024, 2, 15⟩).year ≤ (⟨2024, 2, 15⟩ : CalDate).year)) :=
  ⟨by decide, spec_c3_isoWeek_range ⟨2024, 2, 15⟩ (by decide)⟩

/-- C4: `getISOWeek` maps 2024-01-01 to week 1 of 2024, 2023-12-31 to week 52
of 2023, and 2023-01-01 to week 52 of 2022. -/
theorem spec_c4_isoWeek_examples :
    getISOWeek ⟨2024, 1, 1⟩ = ⟨2024, 1⟩ ∧
      getISOWeek ⟨2023, 12, 31⟩ = ⟨2023, 52⟩ ∧
      getISOWeek ⟨2023, 1, 1⟩ = ⟨2022, 52⟩ := by
  decide

/-! ## Period keys and the period-comparison engine (part_002) -/

/-- Granularity selector (`TimeUnit` in `types/data`). -/
inductive TimeUnit
  | Day | Week | Month | Quarter | Year
deriving DecidableEq, Repr

/-- Structured form of the bucket-key strings produced by `generateTrendData`
(part_008 lines 242-265): `YYYY-MM-DD`, `YYYY-W`, `YYYY-M`, `YYYY-QN`,
`YYYY`.  String equality on keys corresponds to equality of `PeriodKey`. -/
inductive PeriodKey
  | day (d : CalDate)
  | week (y : Int) (w : Nat)
  | month (y : Int) (m : Nat)
  | quarter (y : Int) (q : Nat)
  | year (y : Int)
deriving DecidableEq, Repr

/-- Predecessor-key computation of `generateComparisonTable` (part_002 lines
291-339).  `none` models the empty key string that remains when the current
key does not have the shape the active time unit expects (e.g. a quarter key
not starting with `Q`). -/
def previousPeriodKey : TimeUnit → PeriodKey → Option PeriodKey
  | .Day, .day d => some (.day (prevDay d))
  | .Week, .week y w =>
      if 1 < w then some (.week y (w - 1))
      else some (.week (y - 1) (getLastISOWeekOfYear (y - 1)))
  | .Month, .month y m =>
      if 1 < m then some (.month y (m - 1))
      else some (.month (y - 1) 12)
  | .Quarter, .quarter y q =>
      if 1 < q then some (.quarter y (q - 1))
      else some (.quarter (y - 1) 4)
  | .Year, .year y => some (.year (y - 1))
  | _, _ => none

/-- One row of a time-bucketed series, restricted to the selected metric:
the period key together with `Number(row[metric]) || 0`. -/
structure Bucket where
  period : PeriodKey
  value : ℚ
deriving DecidableEq

/-- `parseInt(period.split('-')[1])` applied to a week-key string. -/
def weekNumOf : PeriodKey → Nat
  | .week _ w => w
  | _ => 0

/-- Previous-period lookup of `generateComparisonTable` (part_002 lines
341-390) for the bucket `cur` at index `i` of the chronologically sorted
date-filtered series `sorted`, with `complete` the unfiltered-by-date series:
* `previousPeriod` starts as the immediately preceding bucket `sorted[i-1]`;
* if there is none or its key differs from the predecessor key, the
  predecessor key is looked up in `complete`;
* if that fails and the granularity is Week with current week 1, the code
  looks up the exact last-week key of the previous year (the same key
  again), then falls back to the previous-year week buckets of `complete`
  (selected by `startsWith` on the key string, i.e. week keys of year
  `y - 1`), sorted by week number descending, taking the first;
* when every lookup fails, the initial `previousPeriod` (or `null`) is kept.
-/
def findPreviousPeriod (tu : TimeUnit) (sorted complete : List Bucket)
    (i : Nat) (cur : Bucket) : Option Bucket :=
  let prevKey := previousPeriodKey tu cur.period
  let p0 : Option Bucket := if 0 < i then sorted[i - 1]? else none
  if p0.any (fun b => decide (some b.period = prevKey)) then p0
  else
    match complete.find? (fun b => decide (some b.period = prevKey)) with
    | some b => some b
    | none =>
      match tu, cur.period with
      | .Week, .week y w =>
        if w = 1 then
          let exactWeekKey : PeriodKey := .week (y - 1) (getLastISOWeekOfYear (y - 1))
          match complete.find? (fun b => decide (b.period = exactWeekKey)) with
          | some b => some b
          | none =>
            let prevYearWeeks := complete.filter (fun b =>
              match b.period with | .week y' _ => decide (y' = y - 1) | _ => false)
            match (prevYearWeeks.mergeSort (fun a b =>
                decide (weekNumOf b.period ≤ weekNumOf a.period))).head? with
            | some b => some b
            | none => p0
        else p0
      | _, _ => p0

/-- C5: the predecessor key computed by the comparison engine is
`(year, week-1)` for week > 1 and `(year-1, lastISOWeek(year-1))` for week 1;
`(year, month-1)` / `(year-1, 12)` for months; `(year, Q(n-1))` / `(year-1, Q4)`
for quarters; `year-1` for years.  Concretely `2024-1` resolves to `2023-52`
(52 being the last ISO week of 2023) and `2024-Q1` to `2023-Q4`. -/
theorem spec_c5_previousPeriodKey (y : Int) (w m q : Nat) :
    (1 < w → previousPeriodKey .Week (.week y w) = some (.week y (w - 1))) ∧
    previousPeriodKey .Week (.week y 1)
      = some (.week (y - 1) (getLastISOWeekOfYear (y - 1))) ∧
    (1 < m → previousPeriodKey .Month (.month y m) = some (.month y (m - 1))) ∧
    previousPeriodKey .Month (.month y 1) = some (.month (y - 1) 12) ∧
    (1 < q → previousPeriodKey .Quarter (.quarter y q) = some (.quarter y (q - 1))) ∧
    previousPeriodKey .Quarter (.quarter y 1) = some (.quarter (y - 1) 4) ∧
    previousPeriodKey .Year (.year y) = some (.year (y - 1)) ∧
    previousPeriodKey .Week (.week 2024 1) = some (.week 2023 52) ∧
    previousPeriodKey .Quarter (.quarter 2024 1) = some (.quarter 2023 4) := by
  refine ⟨fun h => ?_, ?_, fun h => ?_, ?_, fun h => ?_, ?_, ?_, ?_, ?_⟩
  · simp [previousPeriodKey, h]
  · simp [previousPeriodKey]
  · simp [previousPeriodKey, h]
  · simp [previousPeriodKey]
  · simp [previousPeriodKey, h]
  · simp [previousPeriodKey]
  · simp [previousPeriodKey]
  · decide
  · decide

/-- Witness for C5: predecessor of week 5 of 2024 is week 4 of 2024. -/
theorem spec_c5_previousPeriodKey_witness :
    previousPeriodKey .Week (.week 2024 5) = some (.week 2024 4) :=
  (spec_c5_previousPeriodKey 2024 5 1 1).1 (by norm_num)

/-- C1 counterexample: with Month granularity, current bucket `2024-3` at
index 1 of the filtered series `[2024-1, 2024-3]` and an empty complete
series, the lookup keeps the `2024-1` neighbour as "previous period" although
the computed predecessor key is `2024-2` — the previous value IS taken from a
bucket whose key differs from the predecessor key. -/
theorem spec_c1_counterexample :
    findPreviousPeriod .Month
        [⟨.month 2024 1, 5⟩, ⟨.month 2024 3, 7⟩] [] 1 ⟨.month 2024 3, 7⟩
      = some ⟨.month 2024 1, 5⟩ ∧
    previousPeriodKey .Month (.month 2024 3) = some (.month 2024 2) ∧
    (PeriodKey.month 2024 1) ≠ (PeriodKey.month 2024 2) := by
  decide

/-- C1 amended: a bucket returned by the previous-period lookup either
carries exactly the predecessor key (found in the filtered series first,
then in the complete series), or the predecessor key is absent from the
complete series and the result is either the kept filtered-series neighbour
`sorted[i-1]` (whatever its key), or — for Week granularity with current
week 1 — some week bucket of the previous year taken from the complete
series. -/
theorem spec_c1_amended (tu : TimeUnit) (sorted complete : List Bucket)
    (i : Nat) (cur b : Bucket)
    (h : findPreviousPeriod tu sorted complete i cur = some b) :
    some b.period = previousPeriodKey tu cur.period ∨
      (complete.find? (fun x => decide (some x.period = previousPeriodKey tu cur.period)) = none ∧
        ((if 0 < i then sorted[i - 1]? else none) = some b ∨
          (b ∈ complete ∧ ∃ y, cur.period = .week y 1 ∧
            ∃ w', b.period = .week (y - 1) w'))) := by
  unfold findPreviousPeriod at h
  by_cases hp : (if 0 < i then sorted[i - 1]? else none).any
      (fun x => decide (some x.period = previousPeriodKey tu cur.period))
  · rw [if_pos hp] at h
    rw [h] at hp
    simp only [Option.any_some, decide_eq_true_eq] at hp
    exact Or.inl hp
  · rw [if_neg hp] at h
    rcases hf : complete.find?
        (fun x => decide (some x.period = previousPeriodKey tu cur.period)) with _ | c
    · rw [hf] at h
      obtain ⟨ck, cv⟩ := cur
      cases tu <;> cases ck <;>
        simp only [] at h <;>
        first
        | exact Or.inr ⟨hf, Or.inl h⟩
        | skip
      -- remaining case: Week / week y w
      rename_i y w
      by_cases hw : w = 1
      · subst hw
        rw [if_pos rfl] at h
        rcases hf2 : complete.find?
            (fun x => decide (x.period = PeriodKey.week (y - 1) (getLastISOWeekOfYear (y - 1)))) with _ | c2
        · rw [hf2] at h
          rcases hh : (List.mergeSort (List.filter (fun x =>
              match x.period with
              | .week y' _ => decide (y' = y - 1)
              | _ => false) complete)
              (fun a b => decide (weekNumOf b.period ≤ weekNumOf a.period))).head? with _ | c3
          · rw [hh] at h
            exact Or.inr ⟨hf, Or.inl h⟩
          · rw [hh] at h
            have hbe : c3 = b := by injection h
            have hmem := List.mem_of_mem_head? hh
            rw [List.mem_mergeSort, List.mem_filter] at hmem
            obtain ⟨hmc, hmk⟩ := hmem
            rw [hbe] at hmc hmk
            refine Or.inr ⟨hf, Or.inr ⟨hmc, y, rfl, ?_⟩⟩
            cases hbk : b.period with
            | week y' w' =>
                rw [hbk] at hmk
                simp only [decide_eq_true_eq] at hmk
                exact ⟨w', by rw [hmk]⟩

            | day d => rw [hbk] at hmk; simp at hmk
            | month ym m' => rw [hbk] at hmk; simp at hmk
            | quarter yq q' => rw [hbk] at hmk; simp at hmk
            | year yy => rw [hbk] at hmk; simp at hmk
        · rw [hf2] at h
          obtain rfl : c2 = b := by injection h
          have := List.find?_some hf2
          simp only [decide_eq_true_eq] at this
          refine Or.inl ?_
          rw [this]
          simp [previousPeriodKey]
      · rw [if_neg hw] at h
        exact Or.inr ⟨hf, Or.inl h⟩
    · rw [hf] at h
      obtain rfl : c = b := by injection h
      have := List.find?_some hf
      simp only [decide_eq_true_eq] at this
      exact Or.inl this

/-- Witness for C1 (amended): with Month granularity, filtered series
`[2024-1, 2024-2]`, empty complete series, the lookup finds the `2024-1`
neighbour, whose key is exactly the predecessor key. -/
theorem spec_c1_amended_witness :
    some (Bucket.mk (.month 2024 1) 5).period
        = previousPeriodKey .Month (Bucket.mk (.month 2024 2) 6).period ∨
      (([] : List Bucket).find? (fun x =>
          decide (some x.period = previousPeriodKey .Month (Bucket.mk (.month 2024 2) 6).period)) = none ∧
        ((if 0 < 1 then [Bucket.mk (.month 2024 1) 5, Bucket.mk (.month 2024 2) 6][1 - 1]? else none)
            = some (Bucket.mk (.month 2024 1) 5) ∨
          ((Bucket.mk (.month 2024 1) 5) ∈ ([] : List Bucket) ∧
            ∃ y, (Bucket.mk (.month 2024 2) 6).period = .week y 1 ∧
              ∃ w', (Bucket.mk (.month 2024 1) 5).period = .week (y - 1) w'))) :=
  spec_c1_amended .Month [⟨.month 2024 1, 5⟩, ⟨.month 2024 2, 6⟩] [] 1
    ⟨.month 2024 2, 6⟩ ⟨.month 2024 1, 5⟩ (by decide)

/-! ## Metrics calculator and KPI summary (part_008 lines 32-149) -/

/-- Raw counters of one canonical record, after `parseNumericValue` has
turned the string cells into numbers (part_008 lines 34-38). -/
structure RawRow where
  imprs : ℚ
  clicks : ℚ
  cost : ℚ
  convs : ℚ
  revenue : ℚ
deriving DecidableEq

/-- Derived per-record metrics attached by `calculateMetrics`. -/
structure MetricsRow where
  ctr : ℚ
  cpc : ℚ
  cpa : ℚ
  convRate : ℚ
  roas : ℚ
  profit : ℚ
  clv : ℚ
deriving DecidableEq

/-- Body of the `calculateMetrics` map (part_008 lines 42-72): every rate is
guarded by `denominator > 0`, profit is an unguarded difference. -/
def calculateMetricsRow (r : RawRow) : MetricsRow :=
  { ctr := if 0 < r.imprs then r.clicks / r.imprs else 0,
    cpc := if 0 < r.clicks then r.cost / r.clicks else 0,
    cpa := if 0 < r.convs then r.cost / r.convs else 0,
    convRate := if 0 < r.clicks then r.convs / r.clicks else 0,
    roas := if 0 < r.cost then r.revenue / r.cost else 0,
    profit := r.revenue - r.cost,
    clv := if 0 < r.convs then r.revenue / r.convs else 0 }

/-- `calculateMetrics` (part_008 lines 32-74): each row is returned together
with its recomputed derived metrics. -/
def calculateMetrics (data : List RawRow) : List (RawRow × MetricsRow) :=
  data.map (fun row => (row, calculateMetricsRow row))

/-- KPI summary object (part_008 lines 108-121). -/
structure KpiSummary where
  impressions : ℚ
  clicks : ℚ
  cost : ℚ
  conversions : ℚ
  revenue : ℚ
  profit : ℚ
  ctr : ℚ
  cpc : ℚ
  cpa : ℚ
  convRate : ℚ
  roas : ℚ
  clv : ℚ
deriving DecidableEq

/-- `initialSummary` (part_008 lines 108-121). -/
def initialSummary : KpiSummary :=
  ⟨0, 0, 0, 0, 0, 0, 0, 0, 0, 0, 0, 0⟩

/-- One step of the `reduce` inside `calculateKpiSummary`
(part_008 lines 123-138): sums the five raw counters and accumulates profit
as `revenue - cost` per row. -/
def kpiStep (acc : KpiSummary) (row : RawRow) : KpiSummary :=
  { acc with
    impressions := acc.impressions + row.imprs,
    clicks := acc.clicks + row.clicks,
    cost := acc.cost + row.cost,
    conversions := acc.conversions + row.convs,
    revenue := acc.revenue + row.revenue,
    profit := acc.profit + (row.revenue - row.cost) }

/-- `calculateKpiSummary` (part_008 lines 107-149): reduce over the rows,
then compute the aggregate rates from the summed counters. -/
def calculateKpiSummary (data : List RawRow) : KpiSummary :=
  let summary := data.foldl kpiStep initialSummary
  { summary with
    ctr := if 0 < summary.impressions then summary.clicks / summary.impressions else 0,
    cpc := if 0 < summary.clicks then summary.cost / summary.clicks else 0,
    cpa := if 0 < summary.conversions then summary.cost / summary.conversions else 0,
    convRate := if 0 < summary.clicks then summary.conversions / summary.clicks else 0,
    roas := if 0 < summary.cost then summary.revenue / summary.cost else 0,
    clv := if 0 < summary.conversions then summary.revenue / summary.conversions else 0 }

theorem kpiFold_eq (data : List RawRow) : ∀ acc : KpiSummary,
    data.foldl kpiStep acc =
      { acc with
        impressions := acc.impressions + (data.map RawRow.imprs).sum,
        clicks := acc.clicks + (data.map RawRow.clicks).sum,
        cost := acc.cost + (data.map RawRow.cost).sum,
        conversions := acc.conversions + (data.map RawRow.convs).sum,
        revenue := acc.revenue + (data.map RawRow.revenue).sum,
        profit := acc.profit + (data.map (fun r => r.revenue - r.cost)).sum } := by
  induction data with
  | nil => intro acc; simp
  | cons hd tl ih =>
      intro acc
      rw [List.foldl_cons, ih (kpiStep acc hd)]
      simp only [kpiStep, List.map_cons, List.sum_cons]
      congr 1 <;> ring

/-- C6: the KPI summary contains the sums of the five raw counters (and the
summed per-row profit), each aggregate rate is the ratio of the summed
numerator to the summed denominator, equal to 0 when the summed denominator
is 0 — and it is not in general the average of the per-record rates. -/
theorem spec_c6_kpiSummary :
    (∀ data : List RawRow,
      (calculateKpiSummary data).impressions = (data.map RawRow.imprs).sum ∧
      (calculateKpiSummary data).clicks = (data.map RawRow.clicks).sum ∧
      (calculateKpiSummary data).cost = (data.map RawRow.cost).sum ∧
      (calculateKpiSummary data).conversions = (data.map RawRow.convs).sum ∧
      (calculateKpiSummary data).revenue = (data.map RawRow.revenue).sum ∧
      (calculateKpiSummary data).profit = (data.map (fun r => r.revenue - r.cost)).sum ∧
      (calculateKpiSummary data).ctr
        = (if 0 < (data.map RawRow.imprs).sum
            then (data.map RawRow.clicks).sum / (data.map RawRow.imprs).sum else 0) ∧
      (calculateKpiSummary data).cpc
        = (if 0 < (data.map RawRow.clicks).sum
            then (data.map RawRow.cost).sum / (data.map RawRow.clicks).sum else 0) ∧
      (calculateKpiSummary data).cpa
        = (if 0 < (data.map RawRow.convs).sum
            then (data.map RawRow.cost).sum / (data.map RawRow.convs).sum else 0) ∧
      (calculateKpiSummary data).convRate
        = (if 0 < (data.map RawRow.clicks).sum
            then (data.map RawRow.convs).sum / (data.map RawRow.clicks).sum else 0) ∧
      (calculateKpiSummary data).roas
        = (if 0 < (data.map RawRow.cost).sum
            then (data.map RawRow.revenue).sum / (data.map RawRow.cost).sum else 0) ∧
      (calculateKpiSummary data).clv
        = (if 0 < (data.map RawRow.convs).sum
            then (data.map RawRow.revenue).sum / (data.map RawRow.convs).sum else 0)) ∧
    (∃ data : List RawRow, 0 < (data.map RawRow.cost).sum ∧
      (calculateKpiSummary data).roas
        ≠ (data.map (fun r => (calculateMetricsRow r).roas)).sum / (data.length : ℚ)) := by
  constructor
  · intro data
    unfold calculateKpiSummary
    rw [kpiFold_eq data initialSummary]
    simp [initialSummary]
  · refine ⟨[⟨0, 0, 1, 0, 1⟩, ⟨0, 0, 3, 0, 0⟩], by norm_num, ?_⟩
    unfold calculateKpiSummary
    rw [kpiFold_eq _ initialSummary]
    norm_num [initialSummary, calculateMetricsRow]

theorem rate_zero_rule (num den : ℚ) (hd : 0 ≤ den) :
    (den = 0 → (if 0 < den then num / den else 0) = 0) ∧
      (den ≠ 0 → (if 0 < den then num / den else 0) = num / den) := by
  constructor
  · intro h
    simp [h]
  · intro h
    rw [if_pos (lt_of_le_of_ne hd (Ne.symm h))]

/-- C7: each per-record derived metric equals its numerator over its
denominator, is exactly 0 when the denominator is 0 (the raw counters are
non-negative per the data model), and profit is always revenue minus cost. -/
theorem spec_c7_metricsRow (r : RawRow) (h0 : 0 ≤ r.imprs) (h1 : 0 ≤ r.clicks)
    (h2 : 0 ≤ r.cost) (h3 : 0 ≤ r.convs) :
    ((r.imprs = 0 → (calculateMetricsRow r).ctr = 0) ∧
      (r.imprs ≠ 0 → (calculateMetricsRow r).ctr = r.clicks / r.imprs)) ∧
    ((r.clicks = 0 → (calculateMetricsRow r).cpc = 0) ∧
      (r.clicks ≠ 0 → (calculateMetricsRow r).cpc = r.cost / r.clicks)) ∧
    ((r.convs = 0 → (calculateMetricsRow r).cpa = 0) ∧
      (r.convs ≠ 0 → (calculateMetricsRow r).cpa = r.cost / r.convs)) ∧
    ((r.clicks = 0 → (calculateMetricsRow r).convRate = 0) ∧
      (r.clicks ≠ 0 → (calculateMetricsRow r).convRate = r.convs / r.clicks)) ∧
    ((r.cost = 0 → (calculateMetricsRow r).roas = 0) ∧
      (r.cost ≠ 0 → (calculateMetricsRow r).roas = r.revenue / r.cost)) ∧
    ((r.convs = 0 → (calculateMetricsRow r).clv = 0) ∧
      (r.convs ≠ 0 → (calculateMetricsRow r).clv = r.revenue / r.convs)) ∧
    (calculateMetricsRow r).profit = r.revenue - r.cost :=
  ⟨rate_zero_rule r.clicks r.imprs h0, rate_zero_rule r.cost r.clicks h1,
    rate_zero_rule r.cost r.convs h3, rate_zero_rule r.convs r.clicks h1,
    rate_zero_rule r.revenue r.cost h2, rate_zero_rule r.revenue r.convs h3, rfl⟩

/-- Concrete record used in the witness for C7. -/
def c7row : RawRow := ⟨2, 1, 1, 1, 3⟩

/-- Witness for C7 at the record (impressions 2, clicks 1, cost 1,
conversions 1, revenue 3). -/
theorem spec_c7_metricsRow_witness :
    ((0:ℚ) ≤ c7row.imprs ∧ (0:ℚ) ≤ c7row.clicks ∧ (0:ℚ) ≤ c7row.cost ∧
      (0:ℚ) ≤ c7row.convs) ∧
    (((c7row.imprs = 0 → (calculateMetricsRow c7row).ctr = 0) ∧
      (c7row.imprs ≠ 0 → (calculateMetricsRow c7row).ctr = c7row.clicks / c7row.imprs)) ∧
    ((c7row.clicks = 0 → (calculateMetricsRow c7row).cpc = 0) ∧
      (c7row.clicks ≠ 0 → (calculateMetricsRow c7row).cpc = c7row.cost / c7row.clicks)) ∧
    ((c7row.convs = 0 → (calculateMetricsRow c7row).cpa = 0) ∧
      (c7row.convs ≠ 0 → (calculateMetricsRow c7row).cpa = c7row.cost / c7row.convs)) ∧
    ((c7row.clicks = 0 → (calculateMetricsRow c7row).convRate = 0) ∧
      (c7row.clicks ≠ 0 → (calculateMetricsRow c7row).convRate = c7row.convs / c7row.clicks)) ∧
    ((c7row.cost = 0 → (calculateMetricsRow c7row).roas = 0) ∧
      (c7row.cost ≠ 0 → (calculateMetricsRow c7row).roas = c7row.revenue / c7row.cost)) ∧
    ((c7row.convs = 0 → (calculateMetricsRow c7row).clv = 0) ∧
      (c7row.convs ≠ 0 → (calculateMetricsRow c7row).clv = c7row.revenue / c7row.convs)) ∧
    (calculateMetricsRow c7row).profit = c7row.revenue - c7row.cost) :=
  ⟨⟨by norm_num [c7row], by norm_num [c7row], by norm_num [c7row], by norm_num [c7row]⟩,
    spec_c7_metricsRow c7row (by norm_num [c7row]) (by norm_num [c7row])
      (by norm_num [c7row]) (by norm_num [c7row])⟩

/-! ## Period-over-period change (part_002 lines 128-131 and 434-443) -/

/-- `calculateChange` (part_002 lines 128-131). -/
def calculateChange (current previous : ℚ) : ℚ :=
  if previous = 0 then 0 else (current - previous) / previous * 100

/-- One row of the period-over-period comparison table. -/
structure ComparisonRow where
  period : PeriodKey
  current : ℚ
  previous : Option ℚ
  change : Option ℚ
  previousYear : Option ℚ
  yearOverYearChange : Option ℚ
deriving DecidableEq

/-- Comparison-row assembly (part_002 lines 434-443): the previous /
previous-year values and both percent changes are `null` exactly when the
corresponding looked-up bucket is absent. -/
def mkComparisonRow (key : PeriodKey) (current : ℚ)
    (previousPeriod previousYearPeriod : Option Bucket) : ComparisonRow :=
  { period := key,
    current := current,
    previous := previousPeriod.map Bucket.value,
    change := previousPeriod.map (fun b => calculateChange current b.value),
    previousYear := previousYearPeriod.map Bucket.value,
    yearOverYearChange := previousYearPeriod.map (fun b => calculateChange current b.value) }

/-- C8: the percent change is `(current - previous)/previous * 100` when a
previous-period record with nonzero value exists, exactly 0 when the record
exists with value 0, and `null` precisely when no previous-period record
exists; the year-over-year change follows the same rule. -/
theorem spec_c8_percentChange (key : PeriodKey) (c : ℚ) (pb py : Option Bucket)
    (b : Bucket) :
    (b.value ≠ 0 → (mkComparisonRow key c (some b) py).change
        = some ((c - b.value) / b.value * 100)) ∧
    (b.value = 0 → (mkComparisonRow key c (some b) py).change = some 0) ∧
    ((mkComparisonRow key c pb py).change = none ↔ pb = none) ∧
    (b.value ≠ 0 → (mkComparisonRow key c pb (some b)).yearOverYearChange
        = some ((c - b.value) / b.value * 100)) ∧
    (b.value = 0 → (mkComparisonRow key c pb (some b)).yearOverYearChange = some 0) ∧
    ((mkComparisonRow key c pb py).yearOverYearChange = none ↔ py = none) := by
  refine ⟨fun h => ?_, fun h => ?_, ?_, fun h => ?_, fun h => ?_, ?_⟩ <;>
    simp [mkComparisonRow, calculateChange, *]

/-- Witness for C8: previous value 4, current 5 gives a 25% change. -/
theorem spec_c8_percentChange_witness :
    (mkComparisonRow (.year 2024) 5 (some ⟨.year 2023, 4⟩) none).change
      = some ((5 - (⟨.year 2023, 4⟩ : Bucket).value) / (⟨.year 2023, 4⟩ : Bucket).value * 100) :=
  (spec_c8_percentChange (.year 2024) 5 none none ⟨.year 2023, 4⟩).1 (by norm_num)

/-! ## Date-range filter (`filterByDateRange`, part_008 lines 457-539) -/

/-- A JS `Date` with a time-of-day: calendar day plus milliseconds since
local midnight. -/
structure DateTime where
  date : CalDate
  msOfDay : Nat
deriving DecidableEq

/-- Epoch milliseconds of a `DateTime`; JS `Date` ordering compares these. -/
def absMs (t : DateTime) : Int :=
  epochDay t.date * 86400000 + t.msOfDay

/-- A record as seen by `filterByDateRange`: its `processedDate` when one was
attached earlier in the pipeline, and the result of `new Date(row.Date)` on
the raw date string (`none` when that yields an invalid date).  `tag`
stands for the remaining fields of the row. -/
structure DRow where
  tag : Nat
  processedDate : Option DateTime
  jsDate : Option DateTime
deriving DecidableEq

/-- The per-row date fill of `filterByDateRange` (part_008 lines 466-482):
keep an existing `processedDate`, otherwise adopt the parsed date string. -/
def addProcessedDate (r : DRow) : DRow :=
  match r.processedDate with
  | some _ => r
  | none =>
    match r.jsDate with
    | some d => { r with processedDate := some d }
    | none => r

/-- The date-range filter input; `none` models an empty string bound. -/
structure DateRange where
  startDate : Option CalDate
  endDate : Option CalDate
deriving DecidableEq

/-- `normalizeDate` (part_008 lines 485-500): the start bound is set to
00:00:00.000, the end bound to 23:59:59.999 of its calendar day. -/
def normalizeDate (d : CalDate) (isEndDate : Bool) : DateTime :=
  if isEndDate then ⟨d, 86399999⟩ else ⟨d, 0⟩

/-- `filterByDateRange` (part_008 lines 457-539). -/
def filterByDateRange (data : List DRow) (dateRange : DateRange) : List DRow :=
  if dateRange.startDate.isNone && dateRange.endDate.isNone then data
  else
    let dataWithDates := data.map addProcessedDate
    let startDT := dateRange.startDate.map (fun d => normalizeDate d false)
    let endDT := dateRange.endDate.map (fun d => normalizeDate d true)
    dataWithDates.filter (fun r =>
      match r.processedDate with
      | none => false
      | some rowDate =>
        match startDT, endDT with
        | some s, some e => decide (absMs s ≤ absMs rowDate ∧ absMs rowDate ≤ absMs e)
        | some s, none => decide (absMs s ≤ absMs rowDate)
        | none, some e => decide (absMs rowDate ≤ absMs e)
        | none, none => true)

/-- C9: the date-range filter is inclusive on both ends — a record whose
effective date falls exactly on the start or on the end calendar day is kept
whatever its time-of-day, because the start bound is normalized to
00:00:00.000 and the end bound to 23:59:59.999 — and with both bounds empty
the data passes through unchanged. -/
theorem spec_c9_dateRange_inclusive (data : List DRow) (r : DRow) (s e : CalDate)
    (dt : DateTime) (hr : r ∈ data)
    (hd : (addProcessedDate r).processedDate = some dt)
    (hms : dt.msOfDay ≤ 86399999)
    (hrange : epochDay s ≤ epochDay e)
    (hon : dt.date = s ∨ dt.date = e) :
    addProcessedDate r ∈ filterByDateRange data ⟨some s, some e⟩ ∧
      filterByDateRange data ⟨none, none⟩ = data := by
  constructor
  · unfold filterByDateRange
    rw [if_neg (by simp)]
    rw [List.mem_filter]
    refine ⟨List.mem_map_of_mem addProcessedDate hr, ?_⟩
    rw [hd]
    simp only [Option.map_some, Option.map_some', decide_eq_true_eq]
    simp only [normalizeDate, absMs, Bool.false_eq_true, if_false, if_true, reduceIte]
    have hnn : (0:Int) ≤ (dt.msOfDay : Int) := Int.ofNat_nonneg _
    rcases hon with hon | hon <;> rw [hon] <;> exact ⟨by omega, by omega⟩
  · unfold filterByDateRange
    rw [if_pos (by simp)]

/-- Witness for C9: a record at 02:00 on 2024-01-05 with the range
[2024-01-05, 2024-01-05] is kept, and the empty range passes data through. -/
theorem spec_c9_dateRange_inclusive_witness :
    (DRow.mk 0 (some ⟨⟨2024, 1, 5⟩, 7200000⟩) none)
        ∈ [DRow.mk 0 (some ⟨⟨2024, 1, 5⟩, 7200000⟩) none] ∧
    addProcessedDate (DRow.mk 0 (some ⟨⟨2024, 1, 5⟩, 7200000⟩) none)
        ∈ filterByDateRange [DRow.mk 0 (some ⟨⟨2024, 1, 5⟩, 7200000⟩) none]
            ⟨some ⟨2024, 1, 5⟩, some ⟨2024, 1, 5⟩⟩ ∧
      filterByDateRange [DRow.mk 0 (some ⟨⟨2024, 1, 5⟩, 7200000⟩) none] ⟨none, none⟩
        = [DRow.mk 0 (some ⟨⟨2024, 1, 5⟩, 7200000⟩) none] :=
  ⟨by decide,
    spec_c9_dateRange_inclusive _ _ ⟨2024, 1, 5⟩ ⟨2024, 1, 5⟩ ⟨⟨2024, 1, 5⟩, 7200000⟩
      (by decide) (by decide) (by decide) (le_refl _) (Or.inl rfl)⟩

/-- C10: a record with no `processedDate` and an unparseable date string is
dropped whenever at least one bound of the date range is set, yet passes
through when both bounds are empty — so any date range can shrink the
dataset by removing undated records. -/
theorem spec_c10_undated (data : List DRow) (dateRange : DateRange) (r : DRow)
    (hr : r ∈ data) (hpd : r.processedDate = none) (hjs : r.jsDate = none) :
    (¬(dateRange.startDate = none ∧ dateRange.endDate = none) →
      r ∉ filterByDateRange data dateRange) ∧
    (dateRange.startDate = none ∧ dateRange.endDate = none →
      r ∈ filterByDateRange data dateRange) := by
  constructor
  · intro hne hmem
    unfold filterByDateRange at hmem
    rw [if_neg (by simpa [Option.isNone_iff_eq_none] using hne)] at hmem
    rw [List.mem_filter] at hmem
    obtain ⟨-, hpred⟩ := hmem
    rw [hpd] at hpred
    simp at hpred
  · intro he
    unfold filterByDateRange
    rw [if_pos (by simp [he.1, he.2])]
    exact hr

/-- Witness for C10: an undated record survives the empty range and is
dropped by a one-sided range. -/
theorem spec_c10_undated_witness :
    ((DRow.mk 3 none none) ∈ [DRow.mk 3 none none] ∧
      (DRow.mk 3 none none).processedDate = none ∧
      (DRow.mk 3 none none).jsDate = none) ∧
    ((¬((some ⟨2024, 1, 1⟩ : Option CalDate) = none ∧ (none : Option CalDate) = none) →
        DRow.mk 3 none none ∉ filterByDateRange [DRow.mk 3 none none]
          ⟨some ⟨2024, 1, 1⟩, none⟩) ∧
      ((some ⟨2024, 1, 1⟩ : Option CalDate) = none ∧ (none : Option CalDate) = none →
        DRow.mk 3 none none ∈ filterByDateRange [DRow.mk 3 none none]
          ⟨some ⟨2024, 1, 1⟩, none⟩)) :=
  ⟨⟨by decide, rfl, rfl⟩,
    spec_c10_undated [DRow.mk 3 none none] ⟨some ⟨2024, 1, 1⟩, none⟩
      (DRow.mk 3 none none) (by decide) rfl rfl⟩

/-! ## Row acceptance (`processGoogleSheetData`, fieldMapping.ts lines
405-457) and filter options (`extractFilterOptions`, part_008 lines 92-104) -/

/-- A mapped row (`AdData`), restricted to the fields the acceptance filter
and the filter-option extraction read.  String fields are the mapped cell
contents; `processedDate` is the parsed date. -/
structure AdRow where
  Campaign : String
  AccountName : String
  Language : String
  CampaignType : String
  DomainName : String
  Date : String
  processedDate : Option CalDate
deriving DecidableEq

/-- Filter options (`extractFilterOptions` result). -/
structure FilterOptions where
  accounts : List String
  languages : List String
  campaignTypes : List String
  domains : List String
deriving DecidableEq

/-- `extractFilterOptions` (part_008 lines 92-104); the `[...new Set(...)]`
construct is modelled by `List.dedup` (the member set is identical). -/
def extractFilterOptions (data : List AdRow) : FilterOptions :=
  { accounts := (data.map AdRow.AccountName).dedup,
    languages := (data.map AdRow.Language).dedup,
    campaignTypes := (data.map AdRow.CampaignType).dedup,
    domains := (data.map AdRow.DomainName).dedup }

/-- The per-row date-processing step of `processGoogleSheetData`
(fieldMapping.ts lines 416-441): when the date string is non-empty, try to
parse it and attach `processedDate` on success; on failure (or an empty
string) the row is returned unchanged.  `parse` stands for `parseDate`
(fieldMapping.ts lines 205-281), whose final fallback calls the host's
native `Date` parser; it is therefore kept abstract as any function
`String → Option CalDate`, returning `none` exactly when every parse
strategy fails (as `parseDate` does, e.g. on `"--"`). -/
def processRow (parse : String → Option CalDate) (r : AdRow) : AdRow :=
  if r.Date ≠ "" then
    match parse r.Date with
    | some d => { r with processedDate := some d }
    | none => r
  else r

/-- `processGoogleSheetData` (fieldMapping.ts lines 405-457): map each row,
then keep exactly the rows with `row.Campaign && row.Date` truthy — both
strings non-empty; parse success is NOT part of the acceptance check. -/
def processGoogleSheetData (parse : String → Option CalDate)
    (rows : List AdRow) : List AdRow :=
  (rows.map (processRow parse)).filter
    (fun r => decide (r.Campaign ≠ "" ∧ r.Date ≠ ""))

/-- Concrete row used in the C2 counterexample: a non-empty campaign name
and the non-empty but unparseable date string `"--"`. -/
def c2row : AdRow :=
  { Campaign := "A", AccountName := "Acc", Language := "NL",
    CampaignType := "Search", DomainName := "cv.nl", Date := "--",
    processedDate := none }

/-- C2 counterexample: a row whose date string fails every parse strategy
(the parse function returns `none`) is nevertheless retained by
`processGoogleSheetData`, still has no `processedDate`, and its account name
appears in the extracted filter options. -/
theorem spec_c2_counterexample :
    processGoogleSheetData (fun _ => none) [c2row] = [c2row] ∧
      c2row.processedDate = none ∧
      "Acc" ∈ (extractFilterOptions
        (processGoogleSheetData (fun _ => none) [c2row])).accounts := by
  refine ⟨?_, rfl, ?_⟩ <;> decide

/-- C2 amended: a mapped row is retained exactly when both its campaign name
and its date string are non-empty — successful date parsing is not required,
so rows with unparseable dates survive into the processed dataset (and hence
into the filter-option lists computed from it). -/
theorem spec_c2_amended (parse : String → Option CalDate) (rows : List AdRow)
    (r : AdRow) :
    r ∈ processGoogleSheetData parse rows ↔
      ((∃ r0 ∈ rows, processRow parse r0 = r) ∧
        r.Campaign ≠ "" ∧ r.Date ≠ "") := by
  unfold processGoogleSheetData
  rw [List.mem_filter]
  simp [List.mem_map, decide_eq_true_eq, and_assoc]

/-- Witness for the amended C2 at the concrete unparseable-date row. -/
theorem spec_c2_amended_witness :
    c2row ∈ processGoogleSheetData (fun _ => none) [c2row] ↔
      ((∃ r0 ∈ [c2row], processRow (fun _ => none) r0 = c2row) ∧
        c2row.Campaign ≠ "" ∧ c2row.Date ≠ "") :=
  spec_c2_amended (fun _ => none) [c2row] c2row
